import Mathlib

/-!
Verification development for the ai_dex concentrated-liquidity AMM program.

The definitions below are a shallow embedding of the Rust sources under
`programs/ai_dex/src`.  Machine integers are embedded as `Nat` with explicit
bounds (`U64 = 2^64`, `U128 = 2^128`) where overflow matters; fallible Rust
functions returning `Result<T>` become `Except ErrorCode T`.  Public keys are
embedded as natural numbers: the Rust `Pubkey` ordering is lexicographic on the
32-byte array, which coincides with the numeric order of the big-endian value,
and `Pubkey::default()` is the all-zero key, i.e. `0`.

Code of the repository that lives outside the provided sources (the fixed-point
math module, the swap orchestrator loop, and the SPL token-2022 transfer-fee
library) is modelled from the specification; each such definition carries a
doc comment starting with "Modelled from the spec:".
-/

namespace AiDexSpec

/-- Upper bound (exclusive) of the u64 range. -/
def U64 : Nat := 2 ^ 64

/-- Upper bound (exclusive) of the u128 range. -/
def U128 : Nat := 2 ^ 128

/-- Error codes from `errors.rs` (only the constructors the embedded
operations can produce are included). -/
inductive ErrorCode where
  | InvalidTokenMintOrderError
  | SqrtPriceOutOfBoundsError
  | FeeRateExceededError
  | ProtocolFeeRateExceededError
  | InvalidRewardIndexError
  | InsufficientRewardVaultAmountError
  | MultiplicationOverflowError
  | AmountOutBelowMinimumError
  | AmountInAboveMaximumError
  | UnsupportedTokenMintError
  | TransferFeeCalculationError
  deriving DecidableEq, Repr

instance {ε α : Type} [DecidableEq ε] [DecidableEq α] : DecidableEq (Except ε α) :=
  fun a b =>
    match a, b with
    | .error x, .error y =>
      if h : x = y then .isTrue (by rw [h]) else .isFalse (by intro hc; cases hc; exact h rfl)
    | .error _, .ok _ => .isFalse (by intro hc; cases hc)
    | .ok _, .error _ => .isFalse (by intro hc; cases hc)
    | .ok x, .ok y =>
      if h : x = y then .isTrue (by rw [h]) else .isFalse (by intro hc; cases hc; exact h rfl)

/-! ## Transfer-fee arithmetic

`TransferFee` mirrors the SPL token-2022 `TransferFee` record consumed by
`get_epoch_transfer_fee` in `util/with_wrapper/token.rs`. -/

/-- One epoch's transfer-fee parameters: basis points (u16) and the fee cap
`maximum_fee` (u64). -/
structure TransferFee where
  transfer_fee_basis_points : Nat
  maximum_fee : Nat
  deriving DecidableEq, Repr

/-- `MAX_FEE_BASIS_POINTS` of the SPL transfer-fee extension (100%). -/
def MAX_FEE_BASIS_POINTS : Nat := 10000

/-- `ONE_IN_BASIS_POINTS`, the basis-point denominator. -/
def ONE_IN_BASIS_POINTS : Nat := 10000

/-- Modelled from the spec: the SPL token-2022 library function
`TransferFee::calculate_fee` is an external dependency, not part of this
repository's sources.  Per spec section 4.6 the forward map is
`fee = min(maximum_fee, ceil(amount * bps / 10_000))` (and 0 when the amount or
the rate is zero).  The SPL checked operations cannot fail on in-range inputs
(the product is below 2^128 and the result is capped by `maximum_fee`, a u64),
so the function is total here. -/
def TransferFee.calculate_fee (tf : TransferFee) (pre_fee_amount : Nat) : Nat :=
  if tf.transfer_fee_basis_points = 0 ∨ pre_fee_amount = 0 then 0
  else
    min ((pre_fee_amount * tf.transfer_fee_basis_points + ONE_IN_BASIS_POINTS - 1) /
          ONE_IN_BASIS_POINTS)
        tf.maximum_fee

/-- Modelled from the spec: the SPL token-2022 library function
`TransferFee::calculate_pre_fee_amount`, an external dependency.  It solves for
the smallest fee-included amount whose forward fee recovers at least the given
fee-excluded amount, capping the fee at `maximum_fee`, and fails (`none`) on
u64 overflow. -/
def TransferFee.calculate_pre_fee_amount (tf : TransferFee) (post_fee_amount : Nat) :
    Option Nat :=
  if tf.transfer_fee_basis_points = 0 then some post_fee_amount
  else if post_fee_amount = 0 then some 0
  else if tf.transfer_fee_basis_points = MAX_FEE_BASIS_POINTS then
    if post_fee_amount + tf.maximum_fee < U64 then some (post_fee_amount + tf.maximum_fee)
    else none
  else
    let denominator := ONE_IN_BASIS_POINTS - tf.transfer_fee_basis_points
    let raw := (post_fee_amount * ONE_IN_BASIS_POINTS + denominator - 1) / denominator
    if raw - post_fee_amount ≥ tf.maximum_fee then
      if post_fee_amount + tf.maximum_fee < U64 then some (post_fee_amount + tf.maximum_fee)
      else none
    else if raw < U64 then some raw else none

/-- Modelled from the spec: the SPL token-2022 library function
`TransferFee::calculate_inverse_fee`, an external dependency: the forward fee
evaluated on the pre-fee amount. -/
def TransferFee.calculate_inverse_fee (tf : TransferFee) (post_fee_amount : Nat) :
    Option Nat :=
  (tf.calculate_pre_fee_amount post_fee_amount).map tf.calculate_fee

/-! ## Mint model

Only the observations that the embedded functions of
`util/with_wrapper/token.rs` make on a mint account are retained. -/

/-- Token-2022 mint extension types distinguished by `is_supported_token_mint`.
`OtherUnsupported` stands for the wildcard arm (any extension not listed). -/
inductive MintExt where
  | TransferFeeConfig
  | TokenMetadata
  | MetadataPointer
  | ConfidentialTransferMint
  | ConfidentialTransferFeeConfig
  | PermanentDelegate
  | TransferHook
  | MintCloseAuthority
  | DefaultAccountState
  | NonTransferable
  | OtherUnsupported
  deriving DecidableEq, Repr

/-- The facts about a mint account consumed by the embedded token utilities:
the owning program, native-mint status, freeze authority, the extension list,
the stored default account state, and the current epoch's transfer fee (the
value `get_epoch_transfer_fee` would read from the `TransferFeeConfig`
extension). -/
structure MintInfo where
  owner_is_classic_token : Bool
  is_token_2022_native_mint : Bool
  has_freeze_authority : Bool
  extensions : List MintExt
  default_state_is_initialized : Bool
  epoch_transfer_fee : Option TransferFee
  deriving DecidableEq, Repr

/-- `get_epoch_transfer_fee` (`util/with_wrapper/token.rs:516`): `None` for a
mint owned by the classic SPL Token program, otherwise the current epoch's
transfer fee from the mint's `TransferFeeConfig` extension, if present. -/
def get_epoch_transfer_fee (m : MintInfo) : Option TransferFee :=
  if m.owner_is_classic_token then none else m.epoch_transfer_fee

/-- Result record of `calculate_transfer_fee_excluded_amount`. -/
structure TransferFeeExcludedAmount where
  amount : Nat
  transfer_fee : Nat
  deriving DecidableEq, Repr

/-- Result record of `calculate_transfer_fee_included_amount`. -/
structure TransferFeeIncludedAmount where
  amount : Nat
  transfer_fee : Nat
  deriving DecidableEq, Repr

/-- `calculate_transfer_fee_excluded_amount` (`util/with_wrapper/token.rs:464`):
subtract the forward fee when the mint has an epoch transfer fee, otherwise the
identity with zero fee. -/
def calculate_transfer_fee_excluded_amount (m : MintInfo)
    (transfer_fee_included_amount : Nat) : Except ErrorCode TransferFeeExcludedAmount :=
  match get_epoch_transfer_fee m with
  | some tf =>
    let fee := tf.calculate_fee transfer_fee_included_amount
    .ok ⟨transfer_fee_included_amount - fee, fee⟩
  | none => .ok ⟨transfer_fee_included_amount, 0⟩

/-- `calculate_transfer_fee_included_amount` (`util/with_wrapper/token.rs:477`):
zero maps to zero; with an epoch transfer fee, the fee is `maximum_fee` when
the rate is 100% and the SPL inverse fee otherwise; the sum is checked against
u64 overflow and the forward fee of the result is verified against the chosen
fee, failing with `TransferFeeCalculationError` otherwise. -/
def calculate_transfer_fee_included_amount (m : MintInfo)
    (transfer_fee_excluded_amount : Nat) : Except ErrorCode TransferFeeIncludedAmount :=
  if transfer_fee_excluded_amount = 0 then .ok ⟨0, 0⟩
  else
    match get_epoch_transfer_fee m with
    | some tf =>
      let feeOpt : Option Nat :=
        if tf.transfer_fee_basis_points = MAX_FEE_BASIS_POINTS then some tf.maximum_fee
        else tf.calculate_inverse_fee transfer_fee_excluded_amount
      match feeOpt with
      | none => .error .TransferFeeCalculationError
      | some fee =>
        if transfer_fee_excluded_amount + fee < U64 then
          if fee = tf.calculate_fee (transfer_fee_excluded_amount + fee) then
            .ok ⟨transfer_fee_excluded_amount + fee, fee⟩
          else .error .TransferFeeCalculationError
        else .error .TransferFeeCalculationError
    | none => .ok ⟨transfer_fee_excluded_amount, 0⟩

/-! ## Supported-mint predicate -/

/-- One iteration of the extension loop of `is_supported_token_mint`
(`util/with_wrapper/token.rs:366`): `true` means the loop continues, `false`
means it returns `Ok(false)`. -/
def extension_ok (m : MintInfo) (is_token_wrapper_init : Bool) : MintExt → Bool
  | .TransferFeeConfig => true
  | .TokenMetadata => true
  | .MetadataPointer => true
  | .ConfidentialTransferMint => true
  | .ConfidentialTransferFeeConfig => true
  | .PermanentDelegate => is_token_wrapper_init
  | .TransferHook => is_token_wrapper_init
  | .MintCloseAuthority => is_token_wrapper_init
  | .DefaultAccountState => is_token_wrapper_init && m.default_state_is_initialized
  | .NonTransferable => false
  | .OtherUnsupported => false

/-- `is_supported_token_mint` (`util/with_wrapper/token.rs:341`): classic SPL
Token mints are supported unconditionally; the Token-2022 native mint is
rejected; a freeze authority without an initialized token wrapper is rejected;
otherwise every extension must pass the loop (early `return Ok(false)` is
equivalent to `List.all` because each non-returning arm just continues). -/
def is_supported_token_mint (m : MintInfo) (is_token_wrapper_init : Bool) : Bool :=
  if m.owner_is_classic_token then true
  else if m.is_token_2022_native_mint then false
  else if m.has_freeze_authority && !is_token_wrapper_init then false
  else m.extensions.all (extension_ok m is_token_wrapper_init)

/-- The mint gate of `initialize_pool_handler` (`instructions/initialize_pool.rs:136`):
reject with `UnsupportedTokenMintError` unless both mints are supported (mint A
is checked first). -/
def initialize_pool_mint_gate (mint_a mint_b : MintInfo)
    (wrapper_init_a wrapper_init_b : Bool) : Except ErrorCode Unit :=
  if !is_supported_token_mint mint_a wrapper_init_a then .error .UnsupportedTokenMintError
  else if !is_supported_token_mint mint_b wrapper_init_b then .error .UnsupportedTokenMintError
  else .ok ()

/-- The mint gate of `initialize_reward_handler`
(`instructions/fees_rewards/initialize/initialize_reward.rs:85`). -/
def initialize_reward_mint_gate (reward_mint : MintInfo) (wrapper_init : Bool) :
    Except ErrorCode Unit :=
  if !is_supported_token_mint reward_mint wrapper_init then .error .UnsupportedTokenMintError
  else .ok ()

/-! ## Pool state (`state/ai_dex.rs`) -/

/-- `NUM_REWARDS` (`state/ai_dex.rs:72`). -/
def NUM_REWARDS : Nat := 3

/-- `AiDexRewardInfo` (`state/ai_dex.rs:402`); public keys as naturals. -/
structure AiDexRewardInfo where
  mint : Nat
  vault : Nat
  authority : Nat
  emissions_per_second_x64 : Nat
  growth_global_x64 : Nat
  deriving DecidableEq, Repr

/-- `AiDexRewardInfo::default()`: the all-zero record. -/
def AiDexRewardInfo.zero : AiDexRewardInfo := ⟨0, 0, 0, 0, 0⟩

/-- `AiDexRewardInfo::new` (`state/ai_dex.rs:418`): default with the authority set. -/
def AiDexRewardInfo.new (auth : Nat) : AiDexRewardInfo :=
  { AiDexRewardInfo.zero with authority := auth }

/-- `AiDexRewardInfo::initialized` (`state/ai_dex.rs:427`): the mint differs
from the default (all-zero) public key. -/
def AiDexRewardInfo.initialized (r : AiDexRewardInfo) : Bool :=
  r.mint != 0

/-- `AiDexPool` (`state/ai_dex.rs:15`), restricted to the fields the embedded
operations read or write.  The fixed-size array `reward_infos: [AiDexRewardInfo; 3]`
is embedded as a function from `Fin 3`. -/
structure AiDexPool where
  ai_dex_config : Nat
  tick_spacing : Nat
  fee_rate : Nat
  protocol_fee_rate : Nat
  liquidity : Nat
  sqrt_price : Nat
  tick_current_index : Int
  protocol_fee_owed_a : Nat
  protocol_fee_owed_b : Nat
  token_mint_a : Nat
  token_mint_b : Nat
  token_vault_a : Nat
  token_vault_b : Nat
  fee_growth_global_a : Nat
  fee_growth_global_b : Nat
  reward_last_updated_timestamp : Nat
  reward_infos : Fin 3 → AiDexRewardInfo
  deriving DecidableEq

/-- The all-zero pool (a freshly allocated account before `initialize`). -/
def AiDexPool.zero : AiDexPool :=
  ⟨0, 0, 0, 0, 0, 0, 0, 0, 0, 0, 0, 0, 0, 0, 0, 0, fun _ => AiDexRewardInfo.zero⟩

/-- `AiDexConfig`, restricted to the fields `AiDexPool::initialize` reads. -/
structure AiDexConfig where
  key : Nat
  config_authority : Nat
  default_protocol_fee_rate : Nat
  deriving DecidableEq, Repr

/-- Modelled from the spec: the constants `MIN_SQRT_PRICE_X64`,
`MAX_SQRT_PRICE_X64`, `MAX_FEE_RATE` and `MAX_PROTOCOL_FEE_RATE` live in the
math module, which is not among the provided sources; the spec fixes only that
the price bounds correspond to `MIN_TICK`/`MAX_TICK` and that the two rate caps
are u16 values.  They are therefore carried as parameters. -/
structure MathConsts where
  min_sqrt_price_x64 : Nat
  max_sqrt_price_x64 : Nat
  max_fee_rate : Nat
  max_protocol_fee_rate : Nat
  deriving DecidableEq, Repr

/-- `AiDexPool::update_fee_rate` (`state/ai_dex.rs:365`). -/
def AiDexPool.update_fee_rate (c : MathConsts) (p : AiDexPool) (fee_rate : Nat) :
    Except ErrorCode AiDexPool :=
  if fee_rate > c.max_fee_rate then .error .FeeRateExceededError
  else .ok { p with fee_rate := fee_rate }

/-- `AiDexPool::update_protocol_fee_rate` (`state/ai_dex.rs:381`). -/
def AiDexPool.update_protocol_fee_rate (c : MathConsts) (p : AiDexPool)
    (protocol_fee_rate : Nat) : Except ErrorCode AiDexPool :=
  if protocol_fee_rate > c.max_protocol_fee_rate then .error .ProtocolFeeRateExceededError
  else .ok { p with protocol_fee_rate := protocol_fee_rate }

/-- `AiDexPool::initialize` (`state/ai_dex.rs:166`), named `initializePool`
because `initialize` is a reserved word in Lean.  The mint-order check comes
first, then the sqrt-price bounds check, then the two rate updates; on success
the remaining fields are assigned as in the source.  `tick_index_from_sqrt_price`
is a parameter (the math module is not among the provided sources). -/
def initializePool (c : MathConsts) (tickIndexFromSqrtPrice : Nat → Int)
    (p : AiDexPool) (cfg : AiDexConfig) (tick_spacing sqrt_price default_fee_rate : Nat)
    (token_mint_a token_vault_a token_mint_b token_vault_b : Nat) :
    Except ErrorCode AiDexPool :=
  if token_mint_a ≥ token_mint_b then .error .InvalidTokenMintOrderError
  else if sqrt_price < c.min_sqrt_price_x64 ∨ sqrt_price > c.max_sqrt_price_x64 then
    .error .SqrtPriceOutOfBoundsError
  else
    match AiDexPool.update_fee_rate c
        { p with ai_dex_config := cfg.key, tick_spacing := tick_spacing }
        default_fee_rate with
    | .error e => .error e
    | .ok p1 =>
      match p1.update_protocol_fee_rate c cfg.default_protocol_fee_rate with
      | .error e => .error e
      | .ok p2 =>
        .ok { p2 with
              liquidity := 0
              sqrt_price := sqrt_price
              tick_current_index := tickIndexFromSqrtPrice sqrt_price
              protocol_fee_owed_a := 0
              protocol_fee_owed_b := 0
              token_mint_a := token_mint_a
              token_vault_a := token_vault_a
              fee_growth_global_a := 0
              token_mint_b := token_mint_b
              token_vault_b := token_vault_b
              fee_growth_global_b := 0
              reward_infos := fun _ => AiDexRewardInfo.new cfg.config_authority }

/-- `AiDexPool::update_rewards` (`state/ai_dex.rs:225`). -/
def AiDexPool.update_rewards (p : AiDexPool) (infos : Fin 3 → AiDexRewardInfo)
    (ts : Nat) : AiDexPool :=
  { p with reward_last_updated_timestamp := ts, reward_infos := infos }

/-- `AiDexPool::update_rewards_and_liquidity` (`state/ai_dex.rs:240`). -/
def AiDexPool.update_rewards_and_liquidity (p : AiDexPool)
    (infos : Fin 3 → AiDexRewardInfo) (liquidity ts : Nat) : AiDexPool :=
  { p.update_rewards infos ts with liquidity := liquidity }

/-- `AiDexPool::update_reward_authority` (`state/ai_dex.rs:258`). -/
def AiDexPool.update_reward_authority (p : AiDexPool) (index : Nat) (auth : Nat) :
    Except ErrorCode AiDexPool :=
  if index ≥ NUM_REWARDS then .error .InvalidRewardIndexError
  else .ok { p with reward_infos := fun i =>
    if i.val = index then { p.reward_infos i with authority := auth } else p.reward_infos i }

/-- `AiDexPool::update_emissions` (`state/ai_dex.rs:277`): bound check, then
`update_rewards` with the supplied array and timestamp, then overwrite the
indexed slot's emissions rate. -/
def AiDexPool.update_emissions (p : AiDexPool) (index : Nat)
    (infos : Fin 3 → AiDexRewardInfo) (ts emissions_per_second_x64 : Nat) :
    Except ErrorCode AiDexPool :=
  if index ≥ NUM_REWARDS then .error .InvalidRewardIndexError
  else
    let p1 := p.update_rewards infos ts
    .ok { p1 with reward_infos := fun i =>
      if i.val = index then
        { p1.reward_infos i with emissions_per_second_x64 := emissions_per_second_x64 }
      else p1.reward_infos i }

/-- First index whose reward slot is uninitialized, i.e.
`reward_infos.iter().position(|r| !r.initialized())` over the 3-element array. -/
def lowestUninitializedSlot (infos : Fin 3 → AiDexRewardInfo) : Option Nat :=
  if (infos 0).initialized = false then some 0
  else if (infos 1).initialized = false then some 1
  else if (infos 2).initialized = false then some 2
  else none

/-- `AiDexPool::initialize_reward` (`state/ai_dex.rs:302`): bound check, the
index must equal the lowest uninitialized slot, and only that slot's mint and
vault are assigned. -/
def AiDexPool.initialize_reward (p : AiDexPool) (index : Nat) (mint vault : Nat) :
    Except ErrorCode AiDexPool :=
  if index ≥ NUM_REWARDS then .error .InvalidRewardIndexError
  else
    match lowestUninitializedSlot p.reward_infos with
    | none => .error .InvalidRewardIndexError
    | some lowest =>
      if lowest ≠ index then .error .InvalidRewardIndexError
      else .ok { p with reward_infos := fun i =>
        if i.val = index then { p.reward_infos i with mint := mint, vault := vault }
        else p.reward_infos i }

/-- `AiDexPool::update_after_swap` (`state/ai_dex.rs:331`): assign the new
liquidity, tick index, sqrt price, reward state, and credit the fee-growth
global and protocol fee on the input side. -/
def AiDexPool.update_after_swap (p : AiDexPool) (liquidity : Nat) (tick_index : Int)
    (sqrt_price fee_growth_global : Nat) (infos : Fin 3 → AiDexRewardInfo)
    (protocol_fee : Nat) (is_token_fee_in_a : Bool) (ts : Nat) : AiDexPool :=
  let p1 := { p with
    tick_current_index := tick_index
    sqrt_price := sqrt_price
    liquidity := liquidity
    reward_infos := infos
    reward_last_updated_timestamp := ts }
  if is_token_fee_in_a then
    { p1 with
      fee_growth_global_a := fee_growth_global
      protocol_fee_owed_a := p1.protocol_fee_owed_a + protocol_fee }
  else
    { p1 with
      fee_growth_global_b := fee_growth_global
      protocol_fee_owed_b := p1.protocol_fee_owed_b + protocol_fee }

/-! ## Reward roll-forward and emissions (`set_reward_emissions.rs`) -/

/-- Modelled from the spec: `next_ai_dex_reward_infos` lives in the swap/reward
orchestrator, which is not among the provided sources.  Spec section 4.3 step 1:
for each initialized reward slot, if the pool's liquidity is positive, the
growth accumulator advances by `(now - reward_last_updated_timestamp) *
emissions_per_second_x64 / liquidity` (Q64.64 division rounding down, u128
wrap-around); with zero liquidity the growths do not advance.  Mints, vaults,
authorities and emission rates are untouched. -/
def next_ai_dex_reward_infos (p : AiDexPool) (ts : Nat) : Fin 3 → AiDexRewardInfo :=
  if p.liquidity = 0 then p.reward_infos
  else fun i =>
    let r := p.reward_infos i
    if r.initialized then
      { r with growth_global_x64 :=
          (r.growth_global_x64 +
            (ts - p.reward_last_updated_timestamp) * r.emissions_per_second_x64 / p.liquidity)
          % U128 }
    else r

/-- `DAY_IN_SECONDS` (`set_reward_emissions.rs:10`). -/
def DAY_IN_SECONDS : Nat := 60 * 60 * 24

/-- Modelled from the spec: `checked_mul_shift_right` is in the math module,
which is not among the provided sources.  Per the spec's checked-arithmetic
discipline (section 7, `MultiplicationOverflowError`) the u128 product is
checked, then shifted right by 64 bits; the shifted value always fits in u64. -/
def checked_mul_shift_right (n0 n1 : Nat) : Except ErrorCode Nat :=
  if n0 * n1 ≥ U128 then .error .MultiplicationOverflowError
  else .ok ((n0 * n1) >>> 64)

/-- `set_reward_emissions_handler` (`set_reward_emissions.rs:57`): compute one
day of emissions, demand the vault balance covers it, then roll rewards
forward to `ts` and store the new rate via `update_emissions`. -/
def set_reward_emissions_handler (p : AiDexPool) (vault_amount : Nat)
    (reward_index : Nat) (emissions_per_second_x64 : Nat) (ts : Nat) :
    Except ErrorCode AiDexPool :=
  match checked_mul_shift_right DAY_IN_SECONDS emissions_per_second_x64 with
  | .error e => .error e
  | .ok emissions_per_day =>
    if vault_amount < emissions_per_day then .error .InsufficientRewardVaultAmountError
    else p.update_emissions reward_index (next_ai_dex_reward_infos p ts) ts
           emissions_per_second_x64

/-! ## Swap surface (`instructions/swap.rs`) -/

/-- `PostSwapUpdate` as consumed and produced by
`swap_with_transfer_fee_extension`; the inner swap loop's result has the same
shape. -/
structure PostSwapUpdate where
  amount_a : Nat
  amount_b : Nat
  next_liquidity : Nat
  next_tick_index : Int
  next_sqrt_price : Nat
  next_fee_growth_global : Nat
  next_protocol_fee : Nat
  next_reward_infos : Fin 3 → AiDexRewardInfo
  deriving DecidableEq

/-- `swap_with_transfer_fee_extension` (`instructions/swap.rs:225`).  The inner
`swap` loop lives in the swap orchestrator, which is not among the provided
sources; it is abstracted as the parameter `swapLoop`, the function from the
amount handed to it (the transfer-fee adjusted amount computed here) to its
result.  All other steps follow the source line by line. -/
def swap_with_transfer_fee_extension
    (swapLoop : Nat → Except ErrorCode PostSwapUpdate)
    (token_mint_a token_mint_b : MintInfo)
    (amount : Nat) (amount_specified_is_input a_to_b : Bool) :
    Except ErrorCode PostSwapUpdate := do
  let input_token_mint := if a_to_b then token_mint_a else token_mint_b
  let output_token_mint := if a_to_b then token_mint_b else token_mint_a
  let (transfer_fee_included_amount, transfer_fee_excluded_amount) ←
    if amount_specified_is_input then do
      let e ← calculate_transfer_fee_excluded_amount input_token_mint amount
      pure (amount, e.amount)
    else do
      let i ← calculate_transfer_fee_included_amount output_token_mint amount
      pure (i.amount, amount)
  let swap_update ← swapLoop transfer_fee_excluded_amount
  let (swap_update_amount_input, swap_update_amount_output) :=
    if a_to_b then (swap_update.amount_a, swap_update.amount_b)
    else (swap_update.amount_b, swap_update.amount_a)
  let adjusted_transfer_fee_included_amount ←
    if amount_specified_is_input then
      if swap_update_amount_input = transfer_fee_excluded_amount then
        pure transfer_fee_included_amount
      else do
        let i ← calculate_transfer_fee_included_amount input_token_mint
                  swap_update_amount_input
        pure i.amount
    else
      pure swap_update_amount_output
  let (amount_a, amount_b) :=
    if a_to_b then (adjusted_transfer_fee_included_amount, swap_update_amount_output)
    else (swap_update_amount_output, adjusted_transfer_fee_included_amount)
  return { swap_update with amount_a := amount_a, amount_b := amount_b }

/-- The slippage check of `swap_handler` (`instructions/swap.rs:139`), applied
to the result of `swap_with_transfer_fee_extension`: exact-in compares the
transfer-fee-excluded output-side entry against the threshold (failing
`AmountOutBelowMinimumError` when strictly below); exact-out compares the
input-side entry directly (failing `AmountInAboveMaximumError` when strictly
above). -/
def swap_handler_slippage_check (swap_update : PostSwapUpdate)
    (token_mint_a token_mint_b : MintInfo) (other_amount_threshold : Nat)
    (amount_specified_is_input a_to_b : Bool) : Except ErrorCode Unit := do
  if amount_specified_is_input then
    let out ←
      if a_to_b then calculate_transfer_fee_excluded_amount token_mint_b swap_update.amount_b
      else calculate_transfer_fee_excluded_amount token_mint_a swap_update.amount_a
    if out.amount < other_amount_threshold then
      throw .AmountOutBelowMinimumError
    else
      return ()
  else
    let transfer_fee_included_input_amount :=
      if a_to_b then swap_update.amount_a else swap_update.amount_b
    if transfer_fee_included_input_amount > other_amount_threshold then
      throw .AmountInAboveMaximumError
    else
      return ()

/-- The part of `swap_handler` (`instructions/swap.rs:98`) up to and including
the slippage check: run `swap_with_transfer_fee_extension`, then the threshold
check; only if both pass does the handler go on to mutate the pool
(`update_and_swap_ai_dex`), so an error here leaves all state untouched. -/
def swap_handler_checked (swapLoop : Nat → Except ErrorCode PostSwapUpdate)
    (token_mint_a token_mint_b : MintInfo)
    (amount other_amount_threshold : Nat) (amount_specified_is_input a_to_b : Bool) :
    Except ErrorCode PostSwapUpdate := do
  let swap_update ← swap_with_transfer_fee_extension swapLoop token_mint_a token_mint_b
    amount amount_specified_is_input a_to_b
  swap_handler_slippage_check swap_update token_mint_a token_mint_b
    other_amount_threshold amount_specified_is_input a_to_b
  return swap_update

/-- Modelled from the spec: spec section 4.4 step 7 — when the swap loop
crosses an initialized tick moving `a_to_b`, the pool's sqrt price lands
exactly on the crossed tick's price and `tick_current_index` moves to
`next_tick - 1`; the state write-back goes through
`AiDexPool::update_after_swap`.  `sqrtPriceAtTick` (the tick-to-price map of
the math module, not among the provided sources) is a parameter. -/
def cross_tick_update_a_to_b (sqrtPriceAtTick : Int → Nat) (p : AiDexPool)
    (next_tick : Int) (next_liquidity fee_growth_global protocol_fee ts : Nat)
    (infos : Fin 3 → AiDexRewardInfo) : AiDexPool :=
  p.update_after_swap next_liquidity (next_tick - 1) (sqrtPriceAtTick next_tick)
    fee_growth_global infos protocol_fee true ts

/-! ## Concrete mints and swap loops used in evaluations -/

/-- A mint owned by the classic SPL Token program (freeze authority present,
no wrapper): the configuration claim C10 is about. -/
def classicMint : MintInfo := ⟨true, false, true, [], false, none⟩

/-- A Token-2022 mint whose only extension is the confidential-transfer mint
extension (no freeze authority, not the native mint). -/
def confidentialMint : MintInfo :=
  ⟨false, false, false, [MintExt.ConfidentialTransferMint], true, none⟩

/-- A Token-2022 mint with the non-transferable extension. -/
def nonTransferableMint : MintInfo :=
  ⟨false, false, false, [MintExt.NonTransferable], true, none⟩

/-! ## Claim theorems -/

/-- Claim C10: a mint owned by the classic SPL Token program is accepted by
`is_supported_token_mint` unconditionally — even with a freeze authority and
no initialized token wrapper — so the mint gates of `initialize_pool_handler`
and `initialize_reward_handler` never reject classic-token mints with
`UnsupportedTokenMintError`. -/
theorem classic_token_mint_always_supported :
    (∀ (m : MintInfo) (w : Bool), m.owner_is_classic_token = true →
      is_supported_token_mint m w = true) ∧
    (∀ (ma mb : MintInfo) (wa wb : Bool),
      ma.owner_is_classic_token = true → mb.owner_is_classic_token = true →
      initialize_pool_mint_gate ma mb wa wb = .ok ()) ∧
    (∀ (m : MintInfo) (w : Bool), m.owner_is_classic_token = true →
      initialize_reward_mint_gate m w = .ok ()) := by
  refine ⟨?_, ?_, ?_⟩
  · intro m w h
    simp [is_supported_token_mint, h]
  · intro ma mb wa wb ha hb
    simp [initialize_pool_mint_gate, is_supported_token_mint, ha, hb]
  · intro m w h
    simp [initialize_reward_mint_gate, is_supported_token_mint, h]

/-- Claim C10 witness: the classic-token mint with a freeze authority and no
wrapper passes the pool mint gate. -/
theorem classic_token_mint_always_supported_witness :
    initialize_pool_mint_gate classicMint classicMint false false = .ok () :=
  classic_token_mint_always_supported.2.1 classicMint classicMint false false rfl rfl

/-- Claim C3 counterexample: a Token-2022 mint whose extension set contains the
confidential-transfer extension is accepted by `is_supported_token_mint`
(whether or not a token wrapper is initialized), contradicting the claim that
such mints are always rejected. -/
theorem confidential_transfer_mint_is_supported :
    is_supported_token_mint confidentialMint false = true ∧
    is_supported_token_mint confidentialMint true = true := by
  decide

/-- Claim C3 (amended): a Token-2022 mint carrying the non-transferable
extension is rejected regardless of the wrapper, while the
confidential-transfer extensions are among the always-supported ones: a
Token-2022 mint (not the native mint, no freeze authority) all of whose
extensions are transfer-fee, metadata, metadata-pointer or the two
confidential-transfer extensions is supported regardless of the wrapper. -/
theorem non_transferable_rejected_confidential_accepted :
    (∀ (m : MintInfo) (w : Bool), m.owner_is_classic_token = false →
      MintExt.NonTransferable ∈ m.extensions →
      is_supported_token_mint m w = false) ∧
    (∀ (m : MintInfo) (w : Bool), m.owner_is_classic_token = false →
      m.is_token_2022_native_mint = false → m.has_freeze_authority = false →
      (∀ e ∈ m.extensions, e = MintExt.TransferFeeConfig ∨ e = MintExt.TokenMetadata ∨
        e = MintExt.MetadataPointer ∨ e = MintExt.ConfidentialTransferMint ∨
        e = MintExt.ConfidentialTransferFeeConfig) →
      is_supported_token_mint m w = true) := by
  constructor
  · intro m w hcl hmem
    simp only [is_supported_token_mint, hcl, Bool.false_eq_true, if_false]
    split
    · rfl
    · split
      · rfl
      · rw [List.all_eq_false]
        exact ⟨MintExt.NonTransferable, hmem, by simp [extension_ok]⟩
  · intro m w hcl hnative hfreeze hexts
    simp only [is_supported_token_mint, hcl, hnative, hfreeze, Bool.false_eq_true, if_false,
      Bool.false_and, Bool.not_eq_true]
    rw [List.all_eq_true]
    intro e he
    rcases hexts e he with h | h | h | h | h <;> subst h <;> rfl

/-- Claim C3 witness: the amended theorem applied to the concrete
non-transferable mint and to the concrete confidential-transfer mint. -/
theorem non_transferable_rejected_confidential_accepted_witness :
    is_supported_token_mint nonTransferableMint true = false ∧
    is_supported_token_mint confidentialMint false = true :=
  ⟨non_transferable_rejected_confidential_accepted.1 nonTransferableMint true rfl
      (by decide),
   non_transferable_rejected_confidential_accepted.2 confidentialMint false rfl rfl rfl
      (by decide)⟩

/-- A Token-2022 mint whose current-epoch transfer fee is 100% (10000 basis
points) with `maximum_fee = 5`. -/
def hundredPercentFeeMint : MintInfo :=
  ⟨false, false, false, [MintExt.TransferFeeConfig], true, some ⟨10000, 5⟩⟩

/-- A Token-2022 mint with a 1% (100 basis points) transfer fee capped at 10. -/
def onePercentFeeMint : MintInfo :=
  ⟨false, false, false, [MintExt.TransferFeeConfig], true, some ⟨100, 10⟩⟩

/-- Claim C6: with a 100% current-epoch rate, the fee-included map uses the
epoch's `maximum_fee` as the fee and returns `x + maximum_fee`, failing with
`TransferFeeCalculationError` exactly when the sum overflows u64 or the
forward fee of the result disagrees with the chosen fee. -/
theorem hundred_percent_fee_uses_maximum_fee (m : MintInfo) (tf : TransferFee) (x : Nat)
    (hm : get_epoch_transfer_fee m = some tf)
    (hbps : tf.transfer_fee_basis_points = MAX_FEE_BASIS_POINTS)
    (hx : 0 < x) :
    calculate_transfer_fee_included_amount m x =
      if x + tf.maximum_fee < U64 ∧
          tf.maximum_fee = tf.calculate_fee (x + tf.maximum_fee) then
        .ok ⟨x + tf.maximum_fee, tf.maximum_fee⟩
      else .error .TransferFeeCalculationError := by
  unfold calculate_transfer_fee_included_amount
  rw [if_neg (by omega), hm]
  simp only [hbps, reduceIte]
  by_cases h1 : x + tf.maximum_fee < U64
  · by_cases h2 : tf.maximum_fee = tf.calculate_fee (x + tf.maximum_fee)
    · rw [if_pos h1, if_pos h2, if_pos ⟨h1, h2⟩]
    · rw [if_pos h1, if_neg h2, if_neg (by tauto)]
  · rw [if_neg h1, if_neg (by tauto)]

/-- Claim C6 witness: the 100% mint at x = 7 yields 7 + 5 = 12 with fee 5. -/
theorem hundred_percent_fee_uses_maximum_fee_witness :
    calculate_transfer_fee_included_amount hundredPercentFeeMint 7 = .ok ⟨12, 5⟩ := by
  rw [hundred_percent_fee_uses_maximum_fee hundredPercentFeeMint ⟨10000, 5⟩ 7 rfl rfl
    (by decide)]
  decide

/-- Claim C5: whenever the fee-included map succeeds on x > 0 with result
(included, fee), the fee-excluded map on `included` recovers exactly (x, fee);
and on a mint without a current-epoch transfer fee both maps are the identity
with zero fee. -/
theorem transfer_fee_round_trip :
    (∀ (m : MintInfo) (x inc fee : Nat), 0 < x →
      calculate_transfer_fee_included_amount m x = .ok ⟨inc, fee⟩ →
      calculate_transfer_fee_excluded_amount m inc = .ok ⟨x, fee⟩) ∧
    (∀ (m : MintInfo) (y : Nat), get_epoch_transfer_fee m = none →
      calculate_transfer_fee_included_amount m y = .ok ⟨y, 0⟩ ∧
      calculate_transfer_fee_excluded_amount m y = .ok ⟨y, 0⟩) := by
  constructor
  · intro m x inc fee hx h
    unfold calculate_transfer_fee_included_amount at h
    rw [if_neg (by omega)] at h
    unfold calculate_transfer_fee_excluded_amount
    cases hget : get_epoch_transfer_fee m with
    | none =>
      rw [hget] at h
      simp only [Except.ok.injEq, TransferFeeIncludedAmount.mk.injEq] at h
      obtain ⟨rfl, rfl⟩ := h
      rfl
    | some tf =>
      rw [hget] at h
      simp only at h
      cases hfo : (if tf.transfer_fee_basis_points = MAX_FEE_BASIS_POINTS
          then some tf.maximum_fee
          else tf.calculate_inverse_fee x) with
      | none => rw [hfo] at h; exact absurd h (by simp)
      | some f =>
        rw [hfo] at h
        simp only at h
        by_cases h1 : x + f < U64
        · rw [if_pos h1] at h
          by_cases h2 : f = tf.calculate_fee (x + f)
          · rw [if_pos h2] at h
            simp only [Except.ok.injEq, TransferFeeIncludedAmount.mk.injEq] at h
            obtain ⟨h3, h4⟩ := h
            subst h3
            subst h4
            show (Except.ok ⟨x + f - tf.calculate_fee (x + f), tf.calculate_fee (x + f)⟩ :
              Except ErrorCode TransferFeeExcludedAmount) = .ok ⟨x, f⟩
            rw [← h2]
            simp
          · rw [if_neg h2] at h
            exact absurd h (by simp)
        · rw [if_neg h1] at h
          exact absurd h (by simp)
  · intro m y hnone
    constructor
    · unfold calculate_transfer_fee_included_amount
      by_cases hy : y = 0
      · subst hy; rfl
      · rw [if_neg hy, hnone]
    · unfold calculate_transfer_fee_excluded_amount
      rw [hnone]

/-- Claim C5 witness: on the 1% mint, 1000 maps to (1010, 10) and back. -/
theorem transfer_fee_round_trip_witness :
    calculate_transfer_fee_excluded_amount onePercentFeeMint 1010 = .ok ⟨1000, 10⟩ :=
  transfer_fee_round_trip.1 onePercentFeeMint 1000 1010 10 (by decide) (by decide)

/-- A mint with no transfer-fee extension at all (Token-2022, no extensions,
no freeze authority): both fee maps are the identity on it. -/
def plainMint : MintInfo := ⟨false, false, false, [], true, none⟩

/-- An inner swap-loop result for an a-to-b trade: the loop computed the
input-side amount `amount_a = 100` and the output-side amount `amount_b = 50`. -/
def swapLoopInput100Output50 : Nat → Except ErrorCode PostSwapUpdate :=
  fun _ => .ok ⟨100, 50, 0, 0, 0, 0, 0, fun _ => AiDexRewardInfo.zero⟩

/-- Claim C1: evaluation at the failing input.  An exact-output (`amount 50`)
a-to-b call on fee-free mints, whose inner swap loop computes input 100 and
output 50, returns `amount_a = 50`: the input-side entry equals the output
amount, although the transfer-fee-included swap-computed input amount is 100
(second conjunct).  The claim requires the input-side entry to be 100. -/
theorem exact_out_swap_puts_output_amount_on_input_side :
    swap_with_transfer_fee_extension swapLoopInput100Output50 plainMint plainMint
      50 false true =
      .ok ⟨50, 50, 0, 0, 0, 0, 0, fun _ => AiDexRewardInfo.zero⟩ ∧
    calculate_transfer_fee_included_amount plainMint 100 = .ok ⟨100, 0⟩ := by
  constructor
  · rfl
  · rfl

/-- Claim C4: evaluation at the failing input.  Same exact-output call with
`other_amount_threshold = 60`: the transfer-fee-included swap-computed
input-side amount is 100 > 60, so the claim requires the handler to fail with
`AmountInAboveMaximumError`, but the slippage check compares the (mis-assigned)
input-side entry 50 and the handler succeeds. -/
theorem exact_out_slippage_check_misses_input_amount :
    swap_handler_checked swapLoopInput100Output50 plainMint plainMint 50 60 false true =
      .ok ⟨50, 50, 0, 0, 0, 0, 0, fun _ => AiDexRewardInfo.zero⟩ ∧
    calculate_transfer_fee_included_amount plainMint 100 = .ok ⟨100, 0⟩ ∧
    (60 : Nat) < 100 := by
  refine ⟨rfl, rfl, by omega⟩

/-- Claim C7 (amended): `set_reward_emissions` succeeds exactly when the vault
balance covers one day of emissions, `(emissions_per_second_x64 * 86400) >> 64`
computed in exact arithmetic; when the balance is smaller it fails with
`InsufficientRewardVaultAmountError` if the u128 product does not overflow and
with `MultiplicationOverflowError` otherwise (failure returns no state, so the
pool is untouched). -/
theorem set_reward_emissions_sufficiency (p : AiDexPool) (vault e ts index : Nat)
    (hidx : index < NUM_REWARDS) (hvault : vault < U64) :
    ((∃ p', set_reward_emissions_handler p vault index e ts = .ok p') ↔
      (DAY_IN_SECONDS * e) >>> 64 ≤ vault) ∧
    (vault < (DAY_IN_SECONDS * e) >>> 64 →
      set_reward_emissions_handler p vault index e ts =
        if DAY_IN_SECONDS * e < U128 then .error .InsufficientRewardVaultAmountError
        else .error .MultiplicationOverflowError) := by
  have hshift : U128 ≤ DAY_IN_SECONDS * e → (2 : Nat) ^ 64 ≤ (DAY_IN_SECONDS * e) >>> 64 := by
    intro hle
    rw [Nat.shiftRight_eq_div_pow]
    refine (Nat.le_div_iff_mul_le (by positivity)).mpr ?_
    calc (2 : Nat) ^ 64 * 2 ^ 64 = U128 := by norm_num [U128]
      _ ≤ DAY_IN_SECONDS * e := hle
  by_cases hov : U128 ≤ DAY_IN_SECONDS * e
  · have hred : set_reward_emissions_handler p vault index e ts =
        .error .MultiplicationOverflowError := by
      unfold set_reward_emissions_handler checked_mul_shift_right
      rw [if_pos (by omega)]
    have h64 := hshift hov
    refine ⟨⟨?_, ?_⟩, ?_⟩
    · rintro ⟨p', hp'⟩
      rw [hred] at hp'
      exact Except.noConfusion hp'
    · intro hle
      exfalso
      unfold U64 at hvault
      omega
    · intro _
      rw [hred, if_neg (by omega)]
  · have hred : set_reward_emissions_handler p vault index e ts =
        if vault < (DAY_IN_SECONDS * e) >>> 64 then .error .InsufficientRewardVaultAmountError
        else p.update_emissions index (next_ai_dex_reward_infos p ts) ts e := by
      unfold set_reward_emissions_handler checked_mul_shift_right
      rw [if_neg (by omega)]
    refine ⟨⟨?_, ?_⟩, ?_⟩
    · rintro ⟨p', hp'⟩
      rw [hred] at hp'
      by_cases hv : vault < (DAY_IN_SECONDS * e) >>> 64
      · rw [if_pos hv] at hp'
        exact Except.noConfusion hp'
      · omega
    · intro hle
      have hupd : ∃ p', p.update_emissions index (next_ai_dex_reward_infos p ts) ts e =
          .ok p' := by
        unfold AiDexPool.update_emissions
        rw [if_neg (by omega)]
        exact ⟨_, rfl⟩
      obtain ⟨p', hp'⟩ := hupd
      exact ⟨p', by rw [hred, if_neg (by omega)]; exact hp'⟩
    · intro hv
      rw [hred, if_pos hv, if_pos (by omega)]

/-- Claim C7 witness: with vault balance 86400 and an emissions rate of one
token per second (2^64 in Q64.64), the handler succeeds on slot 0. -/
theorem set_reward_emissions_sufficiency_witness :
    ∃ p', set_reward_emissions_handler AiDexPool.zero 86400 0 (2 ^ 64) 0 = .ok p' :=
  (set_reward_emissions_sufficiency AiDexPool.zero 86400 (2 ^ 64) 0 0 (by decide)
    (by norm_num [U64])).1.mpr (by decide)

/-- Claim C7 counterexample: with an emissions rate of 2^121 the u128 product
`86400 * 2^121` overflows, so although the vault balance 0 is far below one day
of emissions (second conjunct), the handler fails with
`MultiplicationOverflowError` rather than the claimed
`InsufficientRewardVaultAmountError`. -/
theorem set_reward_emissions_overflow_yields_multiplication_error :
    set_reward_emissions_handler AiDexPool.zero 0 0 (2 ^ 121) 0 =
      .error .MultiplicationOverflowError ∧
    (0 : Nat) < (DAY_IN_SECONDS * 2 ^ 121) >>> 64 := by
  constructor
  · rfl
  · decide

/-- Claim C9 (amended): `AiDexPool::initialize` checks the mint order first
(`InvalidTokenMintOrderError` exactly when `token_mint_a ≥ token_mint_b`),
then the sqrt-price bounds (`SqrtPriceOutOfBoundsError` exactly when outside
`[MIN_SQRT_PRICE_X64, MAX_SQRT_PRICE_X64]`); it succeeds if and only if,
additionally, the default fee rate and the config's default protocol fee rate
are within their caps; on success liquidity, both fee-growth globals and both
protocol fees owed are zero and `tick_current_index =
tick_index_from_sqrt_price(sqrt_price)`. -/
theorem initialize_pool_characterization (c : MathConsts) (tickIdx : Nat → Int)
    (p : AiDexPool) (cfg : AiDexConfig) (tsp sp dfr ma va mb vb : Nat) :
    (initializePool c tickIdx p cfg tsp sp dfr ma va mb vb =
        .error .InvalidTokenMintOrderError ↔ ma ≥ mb) ∧
    (ma < mb →
      (initializePool c tickIdx p cfg tsp sp dfr ma va mb vb =
          .error .SqrtPriceOutOfBoundsError ↔
        (sp < c.min_sqrt_price_x64 ∨ sp > c.max_sqrt_price_x64))) ∧
    ((∃ p', initializePool c tickIdx p cfg tsp sp dfr ma va mb vb = .ok p') ↔
      (ma < mb ∧ c.min_sqrt_price_x64 ≤ sp ∧ sp ≤ c.max_sqrt_price_x64 ∧
        dfr ≤ c.max_fee_rate ∧
        cfg.default_protocol_fee_rate ≤ c.max_protocol_fee_rate)) ∧
    (∀ p', initializePool c tickIdx p cfg tsp sp dfr ma va mb vb = .ok p' →
      p'.liquidity = 0 ∧ p'.fee_growth_global_a = 0 ∧ p'.fee_growth_global_b = 0 ∧
      p'.protocol_fee_owed_a = 0 ∧ p'.protocol_fee_owed_b = 0 ∧
      p'.sqrt_price = sp ∧ p'.tick_current_index = tickIdx sp ∧
      p'.token_mint_a = ma ∧ p'.token_mint_b = mb) := by
  by_cases h1 : ma ≥ mb
  · have hred : initializePool c tickIdx p cfg tsp sp dfr ma va mb vb =
        .error .InvalidTokenMintOrderError := by
      simp only [initializePool, if_pos h1]
    refine ⟨⟨fun _ => h1, fun _ => hred⟩, fun hlt => absurd hlt (by omega), ?_, ?_⟩
    · constructor
      · rintro ⟨p', hp'⟩
        rw [hred] at hp'
        exact Except.noConfusion hp'
      · rintro ⟨hlt, -⟩
        omega
    · intro p' hp'
      rw [hred] at hp'
      exact Except.noConfusion hp'
  · by_cases h2 : sp < c.min_sqrt_price_x64 ∨ sp > c.max_sqrt_price_x64
    · have hred : initializePool c tickIdx p cfg tsp sp dfr ma va mb vb =
          .error .SqrtPriceOutOfBoundsError := by
        simp only [initializePool, if_neg h1, if_pos h2]
      refine ⟨⟨fun h => ?_, fun h => absurd h h1⟩, fun _ => ⟨fun _ => h2, fun _ => hred⟩,
        ?_, ?_⟩
      · rw [hred] at h
        exact absurd (Except.error.inj h) (by intro hc; cases hc)
      · constructor
        · rintro ⟨p', hp'⟩
          rw [hred] at hp'
          exact Except.noConfusion hp'
        · rintro ⟨-, hmin, hmax, -, -⟩
          omega
      · intro p' hp'
        rw [hred] at hp'
        exact Except.noConfusion hp'
    · by_cases h3 : dfr > c.max_fee_rate
      · have hred : initializePool c tickIdx p cfg tsp sp dfr ma va mb vb =
            .error .FeeRateExceededError := by
          simp only [initializePool, AiDexPool.update_fee_rate, if_neg h1, if_neg h2,
            if_pos h3]
        refine ⟨⟨fun h => ?_, fun h => absurd h h1⟩,
          fun _ => ⟨fun h => ?_, fun h => absurd h h2⟩, ?_, ?_⟩
        · rw [hred] at h
          exact absurd (Except.error.inj h) (by intro hc; cases hc)
        · rw [hred] at h
          exact absurd (Except.error.inj h) (by intro hc; cases hc)
        · constructor
          · rintro ⟨p', hp'⟩
            rw [hred] at hp'
            exact Except.noConfusion hp'
          · rintro ⟨-, -, -, hfr, -⟩
            omega
        · intro p' hp'
          rw [hred] at hp'
          exact Except.noConfusion hp'
      · by_cases h4 : cfg.default_protocol_fee_rate > c.max_protocol_fee_rate
        · have hred : initializePool c tickIdx p cfg tsp sp dfr ma va mb vb =
              .error .ProtocolFeeRateExceededError := by
            simp only [initializePool, AiDexPool.update_fee_rate,
              AiDexPool.update_protocol_fee_rate, if_neg h1, if_neg h2, if_neg h3,
              if_pos h4]
          refine ⟨⟨fun h => ?_, fun h => absurd h h1⟩,
            fun _ => ⟨fun h => ?_, fun h => absurd h h2⟩, ?_, ?_⟩
          · rw [hred] at h
            exact absurd (Except.error.inj h) (by intro hc; cases hc)
          · rw [hred] at h
            exact absurd (Except.error.inj h) (by intro hc; cases hc)
          · constructor
            · rintro ⟨p', hp'⟩
              rw [hred] at hp'
              exact Except.noConfusion hp'
            · rintro ⟨-, -, -, -, hpr⟩
              omega
          · intro p' hp'
            rw [hred] at hp'
            exact Except.noConfusion hp'
        · have hred : initializePool c tickIdx p cfg tsp sp dfr ma va mb vb =
              .ok { ai_dex_config := cfg.key
                    tick_spacing := tsp
                    fee_rate := dfr
                    protocol_fee_rate := cfg.default_protocol_fee_rate
                    liquidity := 0
                    sqrt_price := sp
                    tick_current_index := tickIdx sp
                    protocol_fee_owed_a := 0
                    protocol_fee_owed_b := 0
                    token_mint_a := ma
                    token_mint_b := mb
                    token_vault_a := va
                    token_vault_b := vb
                    fee_growth_global_a := 0
                    fee_growth_global_b := 0
                    reward_last_updated_timestamp := p.reward_last_updated_timestamp
                    reward_infos := fun _ => AiDexRewardInfo.new cfg.config_authority } := by
            simp only [initializePool, AiDexPool.update_fee_rate,
              AiDexPool.update_protocol_fee_rate, if_neg h1, if_neg h2, if_neg h3,
              if_neg h4]
          refine ⟨⟨fun h => ?_, fun h => absurd h h1⟩,
            fun _ => ⟨fun h => ?_, fun h => absurd h h2⟩, ?_, ?_⟩
          · rw [hred] at h
            exact Except.noConfusion h
          · rw [hred] at h
            exact Except.noConfusion h
          · exact ⟨fun _ => ⟨by omega, by omega, by omega, by omega, by omega⟩,
              fun _ => ⟨_, hred⟩⟩
          · intro p' hp'
            rw [hred] at hp'
            obtain rfl := Except.ok.inj hp'
            exact ⟨rfl, rfl, rfl, rfl, rfl, rfl, rfl, rfl, rfl⟩

/-- Claim C9 counterexample instances of the cap constants: any cap values
below `u16::MAX` admit a violating default fee rate; the Orca-lineage values
30000 (hundredths of a basis point) and 2500 (basis points) are used. -/
def cexConsts : MathConsts := ⟨1, 2 ^ 96, 30000, 2500⟩

/-- Claim C9 counterexample: with ordered mints (1 < 2) and an in-bounds
sqrt price, `initialize` still fails — with `FeeRateExceededError`, an error
the claim does not admit — when the fee tier's default fee rate exceeds the
cap, so "succeeds iff mint order and price bounds hold" is false. -/
theorem initialize_pool_fails_on_fee_rate_cap :
    initializePool cexConsts (fun _ => 0) AiDexPool.zero ⟨9, 8, 100⟩ 64 (2 ^ 64) 30001
      1 10 2 20 = .error .FeeRateExceededError ∧
    (1 : Nat) < 2 ∧ cexConsts.min_sqrt_price_x64 ≤ 2 ^ 64 ∧
    (2 : Nat) ^ 64 ≤ cexConsts.max_sqrt_price_x64 := by
  refine ⟨rfl, by omega, by decide, by decide⟩

/-- Claim C9 witness: a fully valid input initializes successfully. -/
theorem initialize_pool_characterization_witness :
    ∃ p', initializePool cexConsts (fun _ => 7) AiDexPool.zero ⟨9, 8, 100⟩ 64 (2 ^ 64)
      3000 1 10 2 20 = .ok p' :=
  (initialize_pool_characterization cexConsts (fun _ => 7) AiDexPool.zero ⟨9, 8, 100⟩
    64 (2 ^ 64) 3000 1 10 2 20).2.2.1.mpr (by refine ⟨by omega, by decide, by decide,
      by decide, by decide⟩)

/-- Helper: on success, `initializePool` stores `tick_index_from_sqrt_price`
of the stored sqrt price in `tick_current_index`. -/
theorem initializePool_ok_tick_index (c : MathConsts) (tickIdx : Nat → Int)
    (p : AiDexPool) (cfg : AiDexConfig) (tsp sp dfr ma va mb vb : Nat) (p' : AiDexPool)
    (h : initializePool c tickIdx p cfg tsp sp dfr ma va mb vb = .ok p') :
    p'.tick_current_index = tickIdx p'.sqrt_price := by
  unfold initializePool at h
  split at h
  · exact Except.noConfusion h
  · split at h
    · exact Except.noConfusion h
    · split at h
      · exact Except.noConfusion h
      · split at h
        · exact Except.noConfusion h
        · obtain rfl := Except.ok.inj h
          rfl

/-- Claim C2 (amended): `AiDexPool::initialize` establishes
`tick_current_index = tick_index_from_sqrt_price(sqrt_price)`, but the
invariant is not preserved by `update_after_swap` after an a-to-b swap that
crosses an initialized tick: there the stored sqrt price is the crossed tick's
price while `tick_current_index` is set to `next_tick - 1`, so for any tick
math satisfying the spec's round-trip property the stored index is
`tick_index_from_sqrt_price(sqrt_price) - 1`. -/
theorem tick_index_price_equality_not_preserved_by_cross :
    (∀ (c : MathConsts) (tickIdx : Nat → Int) (p : AiDexPool) (cfg : AiDexConfig)
      (tsp sp dfr ma va mb vb : Nat) (p' : AiDexPool),
      initializePool c tickIdx p cfg tsp sp dfr ma va mb vb = .ok p' →
      p'.tick_current_index = tickIdx p'.sqrt_price) ∧
    (∀ (sqrtPriceAt : Int → Nat) (tickIdx : Nat → Int) (next_tick : Int),
      tickIdx (sqrtPriceAt next_tick) = next_tick →
      ∀ (p : AiDexPool) (liq fg pf ts : Nat) (infos : Fin 3 → AiDexRewardInfo),
        (cross_tick_update_a_to_b sqrtPriceAt p next_tick liq fg pf ts
            infos).tick_current_index =
          tickIdx ((cross_tick_update_a_to_b sqrtPriceAt p next_tick liq fg pf ts
            infos).sqrt_price) - 1) := by
  constructor
  · exact fun c tickIdx p cfg tsp sp dfr ma va mb vb p' h =>
      initializePool_ok_tick_index c tickIdx p cfg tsp sp dfr ma va mb vb p' h
  · intro sqrtPriceAt tickIdx next_tick hrt p liq fg pf ts infos
    simp only [cross_tick_update_a_to_b, AiDexPool.update_after_swap, if_pos]
    rw [hrt]

/-- Toy instance of the (missing) tick-to-price map for concrete evaluation:
strictly monotone on the covered range. -/
def toySqrtPriceAtTick : Int → Nat := fun t => (t + 1000).toNat

/-- Toy instance of `tick_index_from_sqrt_price`, the floor inverse of
`toySqrtPriceAtTick`; the spec's round-trip property holds on the covered
range. -/
def toyTickIndexFromSqrtPrice : Nat → Int := fun sp => (sp : Int) - 1000

/-- Claim C2 counterexample: after an a-to-b cross of tick 5 the pool's
`tick_current_index` is 4, but `tick_index_from_sqrt_price` of the stored
sqrt price is 5 (first conjunct certifies the toy tick math satisfies the
spec's round-trip property at this input), so the claimed invariant fails. -/
theorem tick_index_differs_from_price_index_after_cross :
    toyTickIndexFromSqrtPrice (toySqrtPriceAtTick 5) = 5 ∧
    (cross_tick_update_a_to_b toySqrtPriceAtTick AiDexPool.zero 5 0 0 0 0
        (fun _ => AiDexRewardInfo.zero)).tick_current_index ≠
      toyTickIndexFromSqrtPrice
        ((cross_tick_update_a_to_b toySqrtPriceAtTick AiDexPool.zero 5 0 0 0 0
          (fun _ => AiDexRewardInfo.zero)).sqrt_price) := by
  constructor
  · rfl
  · decide

/-- Claim C2 witness: the amended theorem applied to the toy tick math at
tick 5. -/
theorem tick_index_price_equality_not_preserved_by_cross_witness :
    (cross_tick_update_a_to_b toySqrtPriceAtTick AiDexPool.zero 5 0 0 0 0
        (fun _ => AiDexRewardInfo.zero)).tick_current_index =
      toyTickIndexFromSqrtPrice
        ((cross_tick_update_a_to_b toySqrtPriceAtTick AiDexPool.zero 5 0 0 0 0
          (fun _ => AiDexRewardInfo.zero)).sqrt_price) - 1 :=
  tick_index_price_equality_not_preserved_by_cross.2 toySqrtPriceAtTick
    toyTickIndexFromSqrtPrice 5 (by decide) AiDexPool.zero 0 0 0 0
    (fun _ => AiDexRewardInfo.zero)

/-! ## Reward-slot ordering (claim C8) -/

/-- The initialized reward slots form an initial segment of the indices
0, 1, 2: an initialized slot never follows an uninitialized one. -/
def initializedIsInitialSegment (infos : Fin 3 → AiDexRewardInfo) : Prop :=
  ((infos 1).initialized = true → (infos 0).initialized = true) ∧
  ((infos 2).initialized = true → (infos 1).initialized = true)

/-- Helper: quantification over `Fin 3` unfolded. -/
theorem forall_fin3 (P : Fin 3 → Prop) : (∀ i : Fin 3, P i) ↔ P 0 ∧ P 1 ∧ P 2 := by
  constructor
  · intro h
    exact ⟨h 0, h 1, h 2⟩
  · rintro ⟨h0, h1, h2⟩ i
    fin_cases i <;> assumption

/-- Helper: `lowestUninitializedSlot` returns `index` exactly when `index` is
in range, uninitialized, and all slots below it are initialized. -/
theorem lowestUninitializedSlot_eq_some_iff (infos : Fin 3 → AiDexRewardInfo)
    (index : Nat) :
    lowestUninitializedSlot infos = some index ↔
      (index < 3 ∧ (∀ i : Fin 3, i.val = index → (infos i).initialized = false) ∧
       (∀ i : Fin 3, i.val < index → (infos i).initialized = true)) := by
  unfold lowestUninitializedSlot
  by_cases b0 : (infos 0).initialized = false <;>
    by_cases b1 : (infos 1).initialized = false <;>
      by_cases b2 : (infos 2).initialized = false <;>
        simp only [Bool.not_eq_false] at b0 b1 b2 <;>
          simp [b0, b1, b2, forall_fin3, Fin.val_zero, Fin.val_one] <;>
            omega

/-- Helper: closed form of `AiDexPool::initialize_reward`. -/
theorem initialize_reward_eq (p : AiDexPool) (index mint vault : Nat) :
    p.initialize_reward index mint vault =
      if index < NUM_REWARDS ∧ lowestUninitializedSlot p.reward_infos = some index then
        .ok { p with reward_infos := fun i =>
          if i.val = index then { p.reward_infos i with mint := mint, vault := vault }
          else p.reward_infos i }
      else .error .InvalidRewardIndexError := by
  unfold AiDexPool.initialize_reward
  by_cases hidx : index ≥ NUM_REWARDS
  · rw [if_pos hidx, if_neg (by omega)]
  · rw [if_neg hidx]
    cases hlow : lowestUninitializedSlot p.reward_infos with
    | none =>
      rw [if_neg (by simp [hlow])]
    | some lowest =>
      dsimp only
      by_cases heq : lowest = index
      · subst heq
        rw [if_neg (by omega), if_pos ⟨by omega, rfl⟩]
      · rw [if_pos heq, if_neg (by intro hc; exact heq (Option.some.inj hc.2))]

/-- Helper: equal mints give equal initialized flags. -/
theorem initialized_congr_mint (r s : AiDexRewardInfo) (h : r.mint = s.mint) :
    r.initialized = s.initialized := by
  unfold AiDexRewardInfo.initialized
  rw [h]

/-- Helper: the reward roll-forward never changes a slot's mint. -/
theorem next_reward_infos_mint (p : AiDexPool) (ts : Nat) (i : Fin 3) :
    (next_ai_dex_reward_infos p ts i).mint = (p.reward_infos i).mint := by
  unfold next_ai_dex_reward_infos
  by_cases h : p.liquidity = 0
  · rw [if_pos h]
  · rw [if_neg h]
    by_cases hi : (p.reward_infos i).initialized <;> simp [hi]

/-- Helper: the reward roll-forward never changes a slot's vault, authority or
emissions rate either. -/
theorem next_reward_infos_fixed_fields (p : AiDexPool) (ts : Nat) (i : Fin 3) :
    (next_ai_dex_reward_infos p ts i).vault = (p.reward_infos i).vault ∧
    (next_ai_dex_reward_infos p ts i).authority = (p.reward_infos i).authority ∧
    (next_ai_dex_reward_infos p ts i).emissions_per_second_x64 =
      (p.reward_infos i).emissions_per_second_x64 := by
  unfold next_ai_dex_reward_infos
  by_cases h : p.liquidity = 0
  · rw [if_pos h]
    exact ⟨rfl, rfl, rfl⟩
  · rw [if_neg h]
    by_cases hi : (p.reward_infos i).initialized <;> simp [hi]

/-- Helper: `update_reward_authority` preserves every slot's mint. -/
theorem update_reward_authority_mint (p : AiDexPool) (index auth : Nat)
    (p' : AiDexPool) (h : p.update_reward_authority index auth = .ok p') (i : Fin 3) :
    (p'.reward_infos i).mint = (p.reward_infos i).mint := by
  unfold AiDexPool.update_reward_authority at h
  split at h
  · exact Except.noConfusion h
  · obtain rfl := Except.ok.inj h
    by_cases hi : i.val = index <;> simp [hi]

/-- Helper: `update_emissions` maps the stored array to the supplied one with
only the indexed slot's emissions rate overwritten. -/
theorem update_emissions_mint (p : AiDexPool) (index : Nat)
    (infos : Fin 3 → AiDexRewardInfo) (ts e : Nat) (p' : AiDexPool)
    (h : p.update_emissions index infos ts e = .ok p') (i : Fin 3) :
    (p'.reward_infos i).mint = (infos i).mint := by
  unfold AiDexPool.update_emissions AiDexPool.update_rewards at h
  split at h
  · exact Except.noConfusion h
  · obtain rfl := Except.ok.inj h
    by_cases hi : i.val = index <;> simp [hi]

/-- Helper: arrays with slotwise equal mints have the same initial-segment
status. -/
theorem segment_congr (a b : Fin 3 → AiDexRewardInfo)
    (h : ∀ i, (a i).mint = (b i).mint) :
    initializedIsInitialSegment a ↔ initializedIsInitialSegment b := by
  unfold initializedIsInitialSegment
  rw [initialized_congr_mint _ _ (h 0), initialized_congr_mint _ _ (h 1),
    initialized_congr_mint _ _ (h 2)]

/-- Helper: the reward roll-forward preserves the initial-segment property. -/
theorem next_reward_infos_segment (p : AiDexPool) (ts : Nat)
    (hseg : initializedIsInitialSegment p.reward_infos) :
    initializedIsInitialSegment (next_ai_dex_reward_infos p ts) :=
  (segment_congr _ _ (next_reward_infos_mint p ts)).mpr hseg

/-- Helper: a successful `initialize_reward` preserves the initial-segment
property (it writes the lowest uninitialized slot only). -/
theorem initialize_reward_preserves_segment (p : AiDexPool) (index mint vault : Nat)
    (p' : AiDexPool) (h : p.initialize_reward index mint vault = .ok p')
    (hseg : initializedIsInitialSegment p.reward_infos) :
    initializedIsInitialSegment p'.reward_infos := by
  rw [initialize_reward_eq] at h
  split at h
  case isTrue hc =>
    obtain rfl := Except.ok.inj h
    obtain ⟨hidx, hlow⟩ := hc
    rw [lowestUninitializedSlot_eq_some_iff] at hlow
    obtain ⟨h3, huninit, hinit⟩ := hlow
    obtain ⟨hs1, hs2⟩ := hseg
    interval_cases index
    · have h1 : (p.reward_infos 1).initialized = false := by
        by_cases hb : (p.reward_infos 1).initialized = true
        · exact absurd (hs1 hb) (by simp [huninit 0 rfl])
        · exact Bool.not_eq_true _ ▸ hb
      have h2 : (p.reward_infos 2).initialized = false := by
        by_cases hb : (p.reward_infos 2).initialized = true
        · exact absurd (hs2 hb) (by simp [h1])
        · exact Bool.not_eq_true _ ▸ hb
      simp [initializedIsInitialSegment, h1, h2]
    · have h0 : (p.reward_infos 0).initialized = true := hinit 0 (by decide)
      have h2 : (p.reward_infos 2).initialized = false := by
        by_cases hb : (p.reward_infos 2).initialized = true
        · exact absurd (hs2 hb) (by simp [huninit 1 rfl])
        · exact Bool.not_eq_true _ ▸ hb
      simp [initializedIsInitialSegment, h0, h2]
    · have h0 : (p.reward_infos 0).initialized = true := hinit 0 (by decide)
      have h1 : (p.reward_infos 1).initialized = true := hinit 1 (by decide)
      simp [initializedIsInitialSegment, h0, h1]
  case isFalse =>
    exact Except.noConfusion h

/-- Claim C8: reward-slot discipline.  `initialize_reward(index, mint, vault)`
succeeds exactly when `index < NUM_REWARDS`, slot `index` is uninitialized and
every lower slot is initialized (i.e. `index` is the lowest uninitialized
slot); on success it changes only that slot's mint and vault; the reward
roll-forward, `update_reward_authority`, `update_emissions` (fed, as in the
handlers, with the roll-forward's output) and `initialize_reward` never change
an initialized slot's mint; and the initialized slots form an initial segment
of 0..NUM_REWARDS in every reachable state: the property holds for a fresh
pool and for the array installed by pool initialization, and is preserved by
`initialize_reward` and the roll-forward. -/
theorem reward_slot_discipline :
    (∀ (p : AiDexPool) (index mint vault : Nat),
      (∃ p', p.initialize_reward index mint vault = .ok p') ↔
        (index < NUM_REWARDS ∧
         (∀ i : Fin 3, i.val = index → (p.reward_infos i).initialized = false) ∧
         (∀ i : Fin 3, i.val < index → (p.reward_infos i).initialized = true))) ∧
    (∀ (p : AiDexPool) (index mint vault : Nat) (p' : AiDexPool),
      p.initialize_reward index mint vault = .ok p' →
      p' = { p with reward_infos := p'.reward_infos } ∧
      (∀ i : Fin 3,
        (i.val = index →
          p'.reward_infos i = { p.reward_infos i with mint := mint, vault := vault }) ∧
        (i.val ≠ index → p'.reward_infos i = p.reward_infos i))) ∧
    (∀ (p : AiDexPool) (ts : Nat) (i : Fin 3),
      (next_ai_dex_reward_infos p ts i).mint = (p.reward_infos i).mint) ∧
    (∀ (p : AiDexPool) (index auth : Nat) (p' : AiDexPool),
      p.update_reward_authority index auth = .ok p' →
      ∀ i : Fin 3, (p'.reward_infos i).mint = (p.reward_infos i).mint) ∧
    (∀ (p : AiDexPool) (index e ts : Nat) (p' : AiDexPool),
      p.update_emissions index (next_ai_dex_reward_infos p ts) ts e = .ok p' →
      ∀ i : Fin 3, (p'.reward_infos i).mint = (p.reward_infos i).mint) ∧
    (∀ (p : AiDexPool) (index mint vault : Nat) (p' : AiDexPool) (i : Fin 3),
      p.initialize_reward index mint vault = .ok p' →
      (p.reward_infos i).initialized = true →
      (p'.reward_infos i).mint = (p.reward_infos i).mint) ∧
    initializedIsInitialSegment AiDexPool.zero.reward_infos ∧
    (∀ (cfgAuth : Nat),
      initializedIsInitialSegment (fun _ => AiDexRewardInfo.new cfgAuth)) ∧
    (∀ (p : AiDexPool) (index mint vault : Nat) (p' : AiDexPool),
      p.initialize_reward index mint vault = .ok p' →
      initializedIsInitialSegment p.reward_infos →
      initializedIsInitialSegment p'.reward_infos) ∧
    (∀ (p : AiDexPool) (ts : Nat),
      initializedIsInitialSegment p.reward_infos →
      initializedIsInitialSegment (next_ai_dex_reward_infos p ts)) := by
  refine ⟨?_, ?_, next_reward_infos_mint, update_reward_authority_mint, ?_, ?_, ?_, ?_,
    initialize_reward_preserves_segment, next_reward_infos_segment⟩
  · intro p index mint vault
    constructor
    · rintro ⟨p', hp'⟩
      rw [initialize_reward_eq] at hp'
      split at hp'
      case isTrue hc =>
        obtain ⟨h1, h2⟩ := hc
        rw [lowestUninitializedSlot_eq_some_iff] at h2
        exact ⟨h1, h2.2.1, h2.2.2⟩
      case isFalse =>
        exact Except.noConfusion hp'
    · rintro ⟨h1, h2, h3⟩
      have hlow : lowestUninitializedSlot p.reward_infos = some index :=
        (lowestUninitializedSlot_eq_some_iff _ _).mpr ⟨h1, h2, h3⟩
      exact ⟨_, by rw [initialize_reward_eq, if_pos ⟨h1, hlow⟩]⟩
  · intro p index mint vault p' h
    rw [initialize_reward_eq] at h
    split at h
    case isTrue hc =>
      obtain rfl := Except.ok.inj h
      refine ⟨rfl, fun i => ⟨fun hi => ?_, fun hi => ?_⟩⟩ <;> simp [hi]
    case isFalse =>
      exact Except.noConfusion h
  · intro p index e ts p' h i
    rw [update_emissions_mint p index _ ts e p' h i, next_reward_infos_mint]
  · intro p index mint vault p' i h hinit
    rw [initialize_reward_eq] at h
    split at h
    case isTrue hc =>
      obtain rfl := Except.ok.inj h
      obtain ⟨h1, h2⟩ := hc
      rw [lowestUninitializedSlot_eq_some_iff] at h2
      by_cases hi : i.val = index
      · exact absurd hinit (by simp [h2.2.1 i hi])
      · simp [hi]
    case isFalse =>
      exact Except.noConfusion h
  · exact ⟨fun h => absurd h (by decide), fun h => absurd h (by decide)⟩
  · intro cfgAuth
    simp [initializedIsInitialSegment, AiDexRewardInfo.new, AiDexRewardInfo.zero,
      AiDexRewardInfo.initialized]

/-- Claim C8 witness: on a fresh pool, slot 0 is the lowest uninitialized slot
and `initialize_reward 0` succeeds. -/
theorem reward_slot_discipline_witness :
    ∃ p', AiDexPool.zero.initialize_reward 0 42 7 = .ok p' :=
  (reward_slot_discipline.1 AiDexPool.zero 0 42 7).mpr (by decide)

end AiDexSpec
